import Mathlib

/-!
# Verification of the termflux runtime middle layer

Shallow embedding, in Lean 4, of the parts of the termflux source that the
specification's claims are about:

* `src/lib/docker/index.ts` — `ContainerManager.exec` and its stream handling;
* the terminal WebSocket gateway (`TerminalWSServer`): connection setup,
  reconnection, close handling, and the Docker stream-header stripping;
* `src/lib/workflows/engine.ts` — `WorkflowEngine`: step evaluation (shell,
  parallel, sequential, conditional, wait), variable substitution, failure
  policies, cancellation, and run-status persistence;
* the secrets manager (`SecretsManager`): name validation, set/get,
  `.env` import/export.

Bytes are modeled as `Nat`, JS strings as Lean `String` (or `List Char` where
character-level reasoning is needed).  Timestamps and durations are not
modeled (real time).  Container exec results are supplied by an oracle list:
each entry is either `.ok (output, exitCode)` (the exec promise fulfilled) or
`.error msg` (the promise rejected — a timeout in the `Promise.race`, a
transport failure, or a thrown validation error).  All definitions are
structural recursions so concrete instances evaluate by `decide` / `rfl`.
-/

/-! ## Docker exec stream framing (`src/lib/docker/index.ts`, `TerminalWSServer.stripDockerHeader`) -/

/-- Embeds the chunk handler in `ContainerManager.exec`
(`output += chunk.slice(8).toString()`): the first 8 bytes of every received
chunk are removed, with no check of the chunk's first byte or length.
`Buffer.slice(8)` on a buffer shorter than 8 bytes yields an empty buffer,
which `List.drop` matches. -/
def execStripChunk (chunk : List Nat) : List Nat :=
  chunk.drop 8

/-- Embeds `TerminalWSServer.stripDockerHeader`: the 8-byte Docker
multiplexing header is removed when `data.length > 8` and the first byte is
`1` or `2`; any other chunk is passed through unmodified.  The byte content
is returned (UTF-8 decoding is modeled as the identity on bytes). -/
def stripDockerHeader (chunk : List Nat) : List Nat :=
  if 8 < chunk.length ∧ (chunk.head? = some 1 ∨ chunk.head? = some 2) then
    chunk.drop 8
  else
    chunk

/-- Whitespace bytes removed by JavaScript `String.prototype.trim` (ASCII
range: tab, LF, VT, FF, CR, space). -/
def isTrimByte (b : Nat) : Bool :=
  b == 9 || b == 10 || b == 11 || b == 12 || b == 13 || b == 32

/-- Embeds `output.trim()`: removes leading and trailing whitespace bytes. -/
def trimBytes (s : List Nat) : List Nat :=
  ((s.dropWhile isTrimByte).reverse.dropWhile isTrimByte).reverse

/-- Embeds the result of `ContainerManager.exec`:  the chunks received on the
exec stream each have their first 8 bytes removed unconditionally, the
concatenation is trimmed, and the pair is returned with the inspect-reported
exit code (`inspection.ExitCode || 0`, i.e. `0` when absent). -/
def containerExec (chunks : List (List Nat)) (inspectExitCode : Option Int) :
    List Nat × Int :=
  (trimBytes ((chunks.map execStripChunk).flatten), inspectExitCode.getD 0)

/-! ## Variable substitution (`WorkflowEngine.executeShellStep`, lines 342–347) -/

/-- Left brace character, written by code point to keep braces out of string
literals. -/
def lbrace : Char := Char.ofNat 123

/-- Right brace character. -/
def rbrace : Char := Char.ofNat 125

/-- Single left-to-right non-overlapping literal replacement pass, the
semantics of JavaScript `String.replace(new RegExp(escapedLiteral, "g"), v)`
for a literal pattern.  The `fuel` argument is a structural-recursion bound;
`replaceAll` instantiates it with the string length, which suffices because
each step consumes at least one character when the pattern is non-empty.
Replacement-string escape sequences (`$&` and friends) are not modeled; no
claim exercises them. -/
def replaceAllAux : Nat → List Char → List Char → List Char → List Char
  | 0, _, _, s => s
  | Nat.succ fuel, pat, rep, s =>
    match s with
    | [] => []
    | c :: rest =>
      if pat.isEmpty then c :: rest
      else if pat.isPrefixOf (c :: rest) then
        rep ++ replaceAllAux fuel pat rep ((c :: rest).drop pat.length)
      else
        c :: replaceAllAux fuel pat rep rest

/-- Replace every (non-overlapping, left-to-right) occurrence of `pat` by
`rep` in `s`. -/
def replaceAll (pat rep s : List Char) : List Char :=
  replaceAllAux s.length pat rep s

/-- Embeds the variable-substitution loop of `executeShellStep` (and the
identical loop in `executeConditionalStep`): for each `[key, value]` of
`Object.entries(variables)` in insertion order, first every `${key}` and then
every `$key` occurrence is replaced by `value`. -/
def substituteVariables (vars : List (String × String)) (command : String) :
    String :=
  vars.foldl
    (fun cmd kv =>
      let withBraced :=
        replaceAll ('$' :: lbrace :: kv.1.toList ++ [rbrace]) kv.2.toList cmd.toList
      String.mk (replaceAll ('$' :: kv.1.toList) kv.2.toList withBraced))
    command

/-! ## Secrets manager (`SecretsManager`, unnamed source file) -/

/-- Double-quote character (written by code point to keep quote characters
out of character literals). -/
def dquote : Char := Char.ofNat 34

/-- Single-quote character. -/
def squote : Char := Char.ofNat 39

/-- Backtick character. -/
def btick : Char := Char.ofNat 96

/-- Backslash character. -/
def bslash : Char := Char.ofNat 92

/-- Characters matched by the JavaScript regex class `\s` (also the set
removed by `String.prototype.trim`): ASCII whitespace plus the Unicode
space separators, line separators, NBSP and BOM. -/
def isJsWs (c : Char) : Bool :=
  c.toNat == 9 || c.toNat == 10 || c.toNat == 11 || c.toNat == 12 ||
  c.toNat == 13 || c.toNat == 32 ||
  c.toNat == 160 || c.toNat == 5760 ||
  (8192 ≤ c.toNat && c.toNat ≤ 8202) ||
  c.toNat == 8232 || c.toNat == 8233 || c.toNat == 8239 ||
  c.toNat == 8287 || c.toNat == 12288 || c.toNat == 65279

/-- Embeds JavaScript `line.trim()` on characters. -/
def trimChars (s : List Char) : List Char :=
  ((s.dropWhile isJsWs).reverse.dropWhile isJsWs).reverse

/-- First character class of the secret-name regex `^[A-Z_][A-Z0-9_]*$`. -/
def isNameStart (c : Char) : Bool :=
  (65 ≤ c.toNat && c.toNat ≤ 90) || c.toNat == 95

/-- Continuation character class `[A-Z0-9_]` of the secret-name regex. -/
def isNameChar (c : Char) : Bool :=
  isNameStart c || (48 ≤ c.toNat && c.toNat ≤ 57)

/-- Embeds the secret-name validation regex `^[A-Z_][A-Z0-9_]*$` used by
`setSecret` and by the key pattern of `importFromEnv`. -/
def validSecretNameL (name : List Char) : Bool :=
  match name with
  | [] => false
  | c :: rest => isNameStart c && rest.all isNameChar

/-- Quote characters recognized by the `importFromEnv` value cleanup regex
`/^["']|["']$/g`. -/
def isQuoteChar (c : Char) : Bool :=
  c == dquote || c == squote

/-- Removes one leading quote character if present (the `^["']` alternative
of the cleanup regex). -/
def dropLeadQuote (s : List Char) : List Char :=
  match s with
  | [] => []
  | c :: rest => if isQuoteChar c then rest else c :: rest

/-- Removes one trailing quote character if present (the `["']$` alternative
of the cleanup regex, which can only fire on a position not already consumed
by the leading match). -/
def dropTrailQuote (s : List Char) : List Char :=
  match s.getLast? with
  | none => s
  | some c => if isQuoteChar c then s.dropLast else s

/-- Embeds `value.replace(/^["']|["']$/g, "")` of `importFromEnv`: one
leading and one trailing quote character are removed independently (they
need not match each other, and inner quotes are untouched). -/
def stripSurroundingQuotes (s : List Char) : List Char :=
  dropTrailQuote (dropLeadQuote s)

/-- JavaScript regex line terminators, the characters `.` does not match:
LF, CR, U+2028 (line separator), U+2029 (paragraph separator). -/
def isLineTerminator (c : Char) : Bool :=
  c.toNat == 10 || c.toNat == 13 || c.toNat == 8232 || c.toNat == 8233

/-- Embeds the regex match `trimmed.match(/^([A-Z_][A-Z0-9_]*)=(.*)$/)` of
`importFromEnv`: a maximal leading run of name characters starting with
`[A-Z_]`, immediately followed by `=`; the rest of the line is the value.
(The character classes contain no `=`, so the greedy group cannot backtrack
across one.)  `.` does not match a line terminator and `$` (no `/m` flag)
anchors only at the end of the string, so a line whose value part contains a
line terminator does not match at all and is skipped. -/
def parseEnvLine (line : List Char) : Option (List Char × List Char) :=
  match line with
  | [] => none
  | c :: _ =>
    if isNameStart c then
      match line.dropWhile isNameChar with
      | '=' :: value =>
        if value.any isLineTerminator then none
        else some (line.takeWhile isNameChar, value)
      | _ => none
    else none

/-- Embeds one iteration of the `importFromEnv` line loop: trim the line,
skip blanks and `#` comments, parse `KEY=VALUE`, strip surrounding quotes.
Returns the `(name, cleanValue)` pair passed to `setSecret`, or `none` when
the line is skipped. -/
def envLineToPair (line : List Char) : Option (List Char × List Char) :=
  let t := trimChars line
  if t.isEmpty then none
  else if t.head? = some '#' then none
  else
    match parseEnvLine t with
    | some nv => some (nv.1, stripSurroundingQuotes nv.2)
    | none => none

/-- Embeds `envContent.split("\n")` (JavaScript `String.split` on a one-char
separator: `"".split` gives `[""]`, and separators delimit possibly empty
fields). -/
def splitOnNl : List Char → List (List Char)
  | [] => [[]]
  | c :: rest =>
    if c = '\n' then [] :: splitOnNl rest
    else
      match splitOnNl rest with
      | [] => [[c]]
      | l :: ls => (c :: l) :: ls

/-- The ordered list of `(name, value)` pairs on which `importFromEnv`
invokes `setSecret` for the given file content. -/
def importPairsL (content : List Char) : List (List Char × List Char) :=
  (splitOnNl content).filterMap envLineToPair

/-- Embeds the quoting test `/[\s"'$`\\]/.test(value)` of `exportToEnv`. -/
def needsQuote (v : List Char) : Bool :=
  v.any (fun c => isJsWs c || c == dquote || c == squote || c == '$' ||
    c == btick || c == bslash)

/-- Embeds `value.replace(/"/g, '\\"')` of `exportToEnv`. -/
def escapeDq (v : List Char) : List Char :=
  v.flatMap (fun c => if c == dquote then [bslash, dquote] else [c])

/-- Embeds one line produced by `exportToEnv`: `KEY="escaped"` when the value
contains a character from the quoting class, plain `KEY=value` otherwise. -/
def exportLineL (k v : List Char) : List Char :=
  if needsQuote v then k ++ '=' :: dquote :: (escapeDq v ++ [dquote])
  else k ++ '=' :: v

/-- Embeds `lines.join("\n")`. -/
def joinNl : List (List Char) → List Char
  | [] => []
  | [l] => l
  | l :: rest => l ++ '\n' :: joinNl rest

/-- Embeds `exportToEnv` at the level of the decrypted `(name, value)` pairs
of the workspace. -/
def exportToEnvL (env : List (List Char × List Char)) : List Char :=
  joinNl (env.map (fun p => exportLineL p.1 p.2))

/-- One row of the `secrets` table.  The `encryptedValue` column stores the
JSON envelope `{encrypted, salt, iv}` produced by AES-256-GCM under a
PBKDF2-derived key; since authenticated decryption of a well-formed envelope
recovers exactly the encrypted plaintext, the envelope is modeled by its
salt, its IV and the plaintext it decrypts to. -/
structure SecretRow where
  id : Nat
  workspaceId : String
  name : String
  envSalt : Nat
  envIv : Nat
  envPlain : String
deriving DecidableEq

/-- The `secrets` table with its id allocator. -/
structure SecretsDb where
  rows : List SecretRow
  nextId : Nat
deriving DecidableEq

/-- Embeds `SecretsManager.setSecret`: validate the name against
`^[A-Z_][A-Z0-9_]*$`, then upsert by `(workspaceId, name)` storing a fresh
envelope (`salt`/`iv` are the fresh random values drawn by `encrypt`). -/
def setSecret (db : SecretsDb) (ws name value : String) (salt iv : Nat) :
    Except String SecretsDb :=
  if !validSecretNameL name.toList then
    .error "Secret name must be uppercase with underscores only (e.g., MY_SECRET)"
  else if db.rows.any (fun r => r.workspaceId == ws && r.name == name) then
    .ok { db with
          rows := db.rows.map (fun r =>
            if r.workspaceId == ws && r.name == name then
              { r with envSalt := salt, envIv := iv, envPlain := value }
            else r) }
  else
    .ok { rows := db.rows ++ [⟨db.nextId, ws, name, salt, iv, value⟩],
          nextId := db.nextId + 1 }

/-- Embeds `SecretsManager.getSecret`: select by `(workspaceId, name)` and
decrypt the stored envelope. -/
def getSecret (db : SecretsDb) (ws name : String) : Option String :=
  (db.rows.find? (fun r => r.workspaceId == ws && r.name == name)).map
    (fun r => r.envPlain)

/-- Embeds `SecretsManager.getSecretsAsEnv` restricted to one workspace: the
decrypted `(name, value)` pairs of its rows, in table order. -/
def getSecretsAsEnv (db : SecretsDb) (ws : String) :
    List (List Char × List Char) :=
  (db.rows.filter (fun r => r.workspaceId == ws)).map
    (fun r => (r.name.toList, r.envPlain.toList))

/-- Embeds `SecretsManager.exportToEnv`. -/
def exportToEnv (db : SecretsDb) (ws : String) : List Char :=
  exportToEnvL (getSecretsAsEnv db ws)

/-- Embeds `SecretsManager.importFromEnv`: parse the content into pairs and
apply `setSecret` to each in order (`salt`/`iv` freshness is irrelevant to
the stored plaintexts, so both are fixed to `0`). -/
def importFromEnv (db : SecretsDb) (ws : String) (content : List Char) :
    Except String SecretsDb :=
  (importPairsL content).foldlM
    (fun d p => setSecret d ws (String.mk p.1) (String.mk p.2) 0 0) db

/-! ## Workflow engine (`src/lib/workflows/engine.ts`) -/

/-- Step kinds (`WorkflowStep.type`). -/
inductive StepType where
  | shell
  | parallel
  | sequential
  | conditional
  | wait
deriving DecidableEq

/-- Rendering of a step kind as it appears in engine error messages. -/
def StepType.name : StepType → String
  | .shell => "shell"
  | .parallel => "parallel"
  | .sequential => "sequential"
  | .conditional => "conditional"
  | .wait => "wait"

/-- On-failure policies (`WorkflowStep.onFailure`). -/
inductive OnFailure where
  | continue_
  | stop
  | retry
deriving DecidableEq

/-- Statuses of a step result (`StepResult.status`). -/
inductive StepStatus where
  | success
  | failed
  | skipped
  | cancelled
deriving DecidableEq

/-- Statuses of a workflow run (`WorkflowRunState.status`). -/
inductive RunStatus where
  | pending
  | running
  | completed
  | failed
  | cancelled
deriving DecidableEq

/-- A `WorkflowStep` record.  `commands`, `env`, `workingDir` and `dependsOn`
do not influence any claim (env and workingDir are forwarded to exec, which
is an oracle here) and are omitted.  Nested steps are `Option (List _)` to
distinguish an absent `steps` field from an empty list, which the engine
checks differently per kind. -/
inductive WorkflowStep : Type where
  | mk
      (id : String)
      (type : StepType)
      (command : Option String)
      (steps : Option (List WorkflowStep))
      (condition : Option String)
      (timeoutSec : Option Nat)
      (retries : Option Nat)
      (onFailure : Option OnFailure)

/-- Projection: step id. -/
def WorkflowStep.id : WorkflowStep → String
  | .mk i _ _ _ _ _ _ _ => i

/-- Projection: step kind. -/
def WorkflowStep.type : WorkflowStep → StepType
  | .mk _ t _ _ _ _ _ _ => t

/-- Projection: shell command. -/
def WorkflowStep.command : WorkflowStep → Option String
  | .mk _ _ c _ _ _ _ _ => c

/-- Projection: nested steps. -/
def WorkflowStep.steps : WorkflowStep → Option (List WorkflowStep)
  | .mk _ _ _ s _ _ _ _ => s

/-- Projection: conditional predicate command. -/
def WorkflowStep.condition : WorkflowStep → Option String
  | .mk _ _ _ _ c _ _ _ => c

/-- Projection: timeout in seconds. -/
def WorkflowStep.timeoutSec : WorkflowStep → Option Nat
  | .mk _ _ _ _ _ t _ _ => t

/-- Projection: retry count. -/
def WorkflowStep.retries : WorkflowStep → Option Nat
  | .mk _ _ _ _ _ _ r _ => r

/-- Projection: on-failure policy. -/
def WorkflowStep.onFailure : WorkflowStep → Option OnFailure
  | .mk _ _ _ _ _ _ _ f => f

/-- A `StepResult` record.  `startedAt`, `completedAt` and `duration` are
wall-clock timestamps and are not modeled. -/
structure StepResult where
  stepId : String
  status : StepStatus
  output : String
  error : Option String
  exitCode : Option Int
deriving DecidableEq

deriving instance DecidableEq for Except

/-- Evaluation state threaded through the engine model:
`oracle` is the stream of outcomes of successive `containerManager.exec`
calls (`.ok (output, exitCode)` for a fulfilled exec promise, `.error msg`
for a rejected one — exec transport failure or the step-timeout
`Promise.race` rejection); `execLog` records the substituted command string
of every exec issued; `steps` is `runState.steps`; `checkCount` counts the
`job.getState()` cancellation checks performed so far. -/
structure EvalState where
  oracle : List (Except String (String × Int))
  execLog : List String
  steps : List StepResult
  checkCount : Nat
deriving DecidableEq

/-- Appends a command to the exec log and consumes the next oracle outcome,
modeling one `containerManager.exec` call. -/
def issueExec (cmd : String) (s : EvalState) :
    Except String (String × Int) × EvalState :=
  let s1 := { s with execLog := s.execLog ++ [cmd] }
  match s1.oracle with
  | [] => (.error "exec oracle exhausted", { s1 with oracle := [] })
  | r :: rest => (r, { s1 with oracle := rest })

/-- Embeds `WorkflowEngine.executeShellStep`: a missing `command` throws;
otherwise the variable-substituted command is raced against the step timeout
by `containerManager.exec` (outcome from the oracle; a timeout or transport
failure is a rejection), a non-zero exit code produces a `failed`
`StepResult` with the error string `Command exited with code {exitCode}`,
and a zero exit code a `success` one.  Timeout durations themselves are
real-time and not modeled beyond the rejection outcome. -/
def executeShellStep (vars : List (String × String)) (step : WorkflowStep)
    (s : EvalState) : Except String StepResult × EvalState :=
  match step.command with
  | none => (.error "Shell step requires a command", s)
  | some c =>
    let cmd := substituteVariables vars c
    match issueExec cmd s with
    | (.error e, s1) => (.error e, s1)
    | (.ok (output, exitCode), s1) =>
      if exitCode != 0 then
        (.ok { stepId := step.id, status := .failed, output := output,
               error := some ("Command exited with code " ++ toString exitCode),
               exitCode := some exitCode }, s1)
      else
        (.ok { stepId := step.id, status := .success, output := output,
               error := none, exitCode := some exitCode }, s1)

/-- Embeds the `Promise.allSettled(step.steps.map(...))` phase of
`executeParallelSteps`: each nested step of kind `shell` is evaluated with
`executeShellStep`; any other kind yields the rejection
`Nested {type} steps not supported in parallel`.  Oracle outcomes are
consumed in child order. -/
def evalParallelChildren (vars : List (String × String)) :
    List WorkflowStep → EvalState →
    List (Except String StepResult) × EvalState
  | [], s => ([], s)
  | c :: rest, s =>
    let (r, s1) :=
      if c.type = .shell then executeShellStep vars c s
      else (.error ("Nested " ++ c.type.name ++ " steps not supported in parallel"), s)
    let (rs, s2) := evalParallelChildren vars rest s1
    (r :: rs, s2)

/-- Embeds JavaScript `Error.prototype.toString` for an error built with
`new Error(message)` (the only errors the engine throws): the error name
`Error`, a colon-space, and the message. -/
def errorToString (message : String) : String :=
  "Error: " ++ message

/-- Embeds the `outputs.push` part of the result-collection loop of
`executeParallelSteps`: a fulfilled child contributes its output, a rejected
one the template `Error: ${result.reason}` — the template stringifies the
rejected `Error` object via `Error.prototype.toString`, so the pushed entry
carries a doubled prefix, `Error: Error: {message}`. -/
def settledOutputs (results : List (Except String StepResult)) : List String :=
  results.map (fun r =>
    match r with
    | .ok v => v.output
    | .error e => "Error: " ++ errorToString e)

/-- Embeds the `hasFailure` flag of the result-collection loop: set by a
fulfilled child whose `StepResult` is `failed` and by every rejected
child. -/
def settledHasFailure (results : List (Except String StepResult)) : Bool :=
  results.any (fun r =>
    match r with
    | .ok v => v.status == .failed
    | .error _ => true)

/-- Embeds the `runState.steps.push(result.value)` part of the collection
loop: only fulfilled children contribute a `StepResult`. -/
def settledResults (results : List (Except String StepResult)) :
    List StepResult :=
  results.filterMap (fun r =>
    match r with
    | .ok v => some v
    | .error _ => none)

/-- Embeds `joined = outputs.join(sep)`. -/
def joinWith (sep : String) : List String → String
  | [] => ""
  | [x] => x
  | x :: rest => x ++ sep ++ joinWith sep rest

/-- Embeds `WorkflowEngine.executeParallelSteps`: throws when `steps` is
absent or empty; otherwise evaluates all children, appends the fulfilled
children's results to `runState.steps`, and returns a composite result that
is `failed` iff some child failed or rejected, with the collected outputs
joined by a newline-dash separator. -/
def executeParallelSteps (vars : List (String × String)) (step : WorkflowStep)
    (s : EvalState) : Except String StepResult × EvalState :=
  match step.steps with
  | none => (.error "Parallel step requires nested steps", s)
  | some [] => (.error "Parallel step requires nested steps", s)
  | some children =>
    let (results, s1) := evalParallelChildren vars children s
    let s2 := { s1 with steps := s1.steps ++ settledResults results }
    (.ok { stepId := step.id,
           status := if settledHasFailure results then .failed else .success,
           output := joinWith "\n---\n" (settledOutputs results),
           error := none, exitCode := none }, s2)

/-- The `StepResult` built by `executeWaitStep` (the sleep itself is real
time and not modeled). -/
def waitStepResult (step : WorkflowStep) : StepResult :=
  { stepId := step.id, status := .success,
    output := "Waited " ++ toString (step.timeoutSec.getD 1) ++ " seconds",
    error := none, exitCode := none }

/-- The failed `StepResult` built in the `catch` block of the
`executeSteps` loop when a step evaluation throws. -/
def caughtFailedResult (step : WorkflowStep) (e : String) : StepResult :=
  { stepId := step.id, status := .failed, output := "",
    error := some e, exitCode := none }

/-- Embeds `WorkflowEngine.executeSteps` (and, inline, the step dispatch,
`executeSequentialSteps` and `executeConditionalStep`, which recurse into
it).  Per loop iteration: check `job.getState()` and throw
`Workflow cancelled` when the job is no longer active (`jobActive` gives the
state observed by the n-th check); evaluate the step; on a thrown evaluation
build the caught failed result and rethrow when `onFailure` is `stop`;
append the result to `runState.steps` and continue.  `job.updateProgress`
touches no modeled state.  `fuel` is a structural-recursion bound on the
number of loop iterations; callers pass any bound larger than the number of
step-tree nodes. -/
def executeSteps (fuel : Nat) (jobActive : Nat → Bool)
    (vars : List (String × String)) (steps : List WorkflowStep)
    (s : EvalState) : Except String Unit × EvalState :=
  match fuel with
  | 0 => (.error "fuel exhausted", s)
  | Nat.succ fuel =>
    match steps with
    | [] => (.ok (), s)
    | step :: rest =>
      let active := jobActive s.checkCount
      let s0 : EvalState := { s with checkCount := s.checkCount + 1 }
      if !active then (.error "Workflow cancelled", s0)
      else
        let (res, s1) :=
          match step.type with
          | .shell => executeShellStep vars step s0
          | .parallel => executeParallelSteps vars step s0
          | .wait => (.ok (waitStepResult step), s0)
          | .sequential =>
            match step.steps with
            | none => (.error "Sequential step requires nested steps", s0)
            | some [] => (.error "Sequential step requires nested steps", s0)
            | some sub =>
              match executeSteps fuel jobActive vars sub s0 with
              | (.ok _, s') =>
                (.ok { stepId := step.id, status := .success,
                       output := "Executed " ++ toString sub.length ++ " sequential steps",
                       error := none, exitCode := none }, s')
              | (.error e, s') => (.error e, s')
          | .conditional =>
            match step.condition, step.steps with
            | none, _ => (.error "Conditional step requires condition and steps", s0)
            | some _, none => (.error "Conditional step requires condition and steps", s0)
            | some cond, some sub =>
              match issueExec (substituteVariables vars cond) s0 with
              | (.error e, s') => (.error e, s')
              | (.ok (_, exitCode), s') =>
                if exitCode == 0 then
                  match executeSteps fuel jobActive vars sub s' with
                  | (.ok _, s'') =>
                    (.ok { stepId := step.id, status := .success,
                           output := "Condition met, steps executed",
                           error := none, exitCode := none }, s'')
                  | (.error e, s'') => (.error e, s'')
                else
                  (.ok { stepId := step.id, status := .success,
                         output := "Condition not met, steps skipped",
                         error := none, exitCode := none }, s')
        match res with
        | .ok r =>
          executeSteps fuel jobActive vars rest { s1 with steps := s1.steps ++ [r] }
        | .error e =>
          let r := caughtFailedResult step e
          if step.onFailure = some .stop then
            (.error e, { s1 with steps := s1.steps ++ [r] })
          else
            executeSteps fuel jobActive vars rest { s1 with steps := s1.steps ++ [r] }

/-- Embeds `WorkflowEngine.processJob` after its transition to `running`:
execute the top-level steps; on success the run is persisted `completed`, on
any exception it is persisted `failed` (with the error recorded).  Returns
the terminal status written by `updateRunStatus` together with the final
evaluation state. -/
def processJob (fuel : Nat) (jobActive : Nat → Bool)
    (vars : List (String × String)) (steps : List WorkflowStep)
    (s : EvalState) : RunStatus × EvalState :=
  match executeSteps fuel jobActive vars steps s with
  | (.ok _, s') => (.completed, s')
  | (.error _, s') => (.failed, s')

/-- The ordered writes to the persisted run row in the cancellation
scenario: `cancelWorkflow` writes `cancelled` (after discarding and failing
the queue job, so every later `job.getState()` check observes a non-active
state), and a worker still processing the run afterwards writes the terminal
status `processJob` produces. -/
def runRowWritesAfterCancel (fuel : Nat) (jobActive : Nat → Bool)
    (vars : List (String × String)) (steps : List WorkflowStep)
    (s : EvalState) : List RunStatus :=
  [.cancelled, (processJob fuel jobActive vars steps s).1]

/-- Modelled from the spec: "`retry` re-runs the step up to `retries` times
before applying the effective on-failure" (§4.6.3).  This retry loop exists
nowhere in the source — `WorkflowStep.retries` is never read by the engine —
and is stated here only to compare the claimed behavior with
`executeShellStep`: the step is attempted once, and re-attempted after a
failed or rejected attempt while retries remain. -/
def executeShellStepWithRetrySpec (attempts : Nat)
    (vars : List (String × String)) (step : WorkflowStep) (s : EvalState) :
    Except String StepResult × EvalState :=
  match attempts with
  | 0 => executeShellStep vars step s
  | Nat.succ n =>
    match executeShellStep vars step s with
    | (.ok r, s') =>
      if r.status = .failed then executeShellStepWithRetrySpec n vars step s'
      else (.ok r, s')
    | (.error _, s') => executeShellStepWithRetrySpec n vars step s'

/-! ## Terminal gateway (`TerminalWSServer`, unnamed source file) -/

/-- Session statuses of the terminal gateway. -/
inductive SessionStatus where
  | active
  | disconnected
  | terminated
deriving DecidableEq

/-- The `RedisSessionState` record stored under `session:{id}` by
`sessionManager.setSession`. -/
structure RedisSessionState where
  id : String
  workspaceId : String
  userId : String
  containerId : String
  tmuxSession : String
  tmuxWindow : Nat
  status : SessionStatus
  createdAt : String
  lastActivity : String
deriving DecidableEq

/-- Frames of the client wire protocol (`WSMessage`); the fields accompanying
each `type` are inlined into the constructors.  `input`, `resize` and `ping`
are client-to-gateway and never appear in a server trace. -/
inductive WSMessage where
  | output (data : String)
  | ready (sessionId : String)
  | reconnect (data : String)
  | error (msg : String)
  | pong
deriving DecidableEq

/-- Is this frame a `ready` frame? -/
def WSMessage.isReady : WSMessage → Bool
  | .ready _ => true
  | _ => false

/-- Is this frame an `output` frame? -/
def WSMessage.isOutput : WSMessage → Bool
  | .output _ => true
  | _ => false

/-- Is this frame a `reconnect` frame? -/
def WSMessage.isReconnect : WSMessage → Bool
  | .reconnect _ => true
  | _ => false

/-- The environment a single `handleConnection` call observes: the query
parameters, the result of `authenticateUser` on the token, the result of
`verifyWorkspaceAccess` for the authenticated user, the `CacheSession`
fetched by `reconnectSession`, whether `containerManager.getContainer`
finds the container, the replay buffer read from the cache, and the fresh
`nanoid(12)` a new session would receive. -/
structure ConnInput where
  token : Option String
  workspaceId : Option String
  sessionId : Option String
  auth : Option String
  workspaceFound : Bool
  cacheSession : Option RedisSessionState
  containerExists : Bool
  buffer : List String
  newSessionId : String

/-- Embeds `TerminalWSServer.handleConnection` together with the
`createSession` / `reconnectSession` branch it awaits, as the ordered list
of frames sent during connection setup plus the close issued, if any.
Errors thrown inside the branch are handled by the surrounding `catch`,
which sends `Connection failed: {message}` and closes with code `4004`.  A
successful reconnect sends one `reconnect` frame carrying the joined buffer
only when the buffer is non-empty, and `handleConnection` then sends the
`ready` frame carrying the bound session id. -/
def handleConnection (inp : ConnInput) :
    List WSMessage × Option (Nat × String) :=
  match inp.token, inp.workspaceId with
  | none, _ =>
    ([.error "Missing required parameters"], some (4001, "Missing required parameters"))
  | some _, none =>
    ([.error "Missing required parameters"], some (4001, "Missing required parameters"))
  | some _, some _ =>
    match inp.auth with
    | none => ([.error "Authentication failed"], some (4002, "Authentication failed"))
    | some userId =>
      if !inp.workspaceFound then
        ([.error "Workspace not found or access denied"],
         some (4003, "Workspace not found or access denied"))
      else
        match inp.sessionId with
        | some sid =>
          match inp.cacheSession with
          | none =>
            ([.error "Connection failed: Session not found"], some (4004, "Connection failed"))
          | some cs =>
            if cs.userId != userId then
              ([.error "Connection failed: Session access denied"], some (4004, "Connection failed"))
            else if !inp.containerExists then
              ([.error "Connection failed: Container not found"], some (4004, "Connection failed"))
            else
              ((if inp.buffer.isEmpty then [] else [.reconnect (joinWith "" inp.buffer)]) ++
                [.ready sid], none)
        | none =>
          if !inp.containerExists then
            ([.error "Connection failed: Container not found"], some (4004, "Connection failed"))
          else
            ([.ready inp.newSessionId], none)

/-- The close code of a `handleConnection` outcome. -/
def closeCodeOf (r : List WSMessage × Option (Nat × String)) : Option Nat :=
  r.2.map Prod.fst

/-- Decodes stream bytes as the `output` frame data (UTF-8 decoding modeled
per byte). -/
def decodeBytes (b : List Nat) : String :=
  String.mk (b.map Char.ofNat)

/-- The full ordered frame trace of one connection: the setup frames of
`handleConnection`, followed — when setup succeeded — by one `output` frame
per chunk later delivered by the attach stream's `data` handler
(`stripDockerHeader` applied, appended to the replay buffer).  The split
into "setup, then data frames" reflects the Node.js event loop: the promise
chain from the connection event through the `ready` send runs in one
microtask drain, and the stream `data` events (macrotask or `nextTick`
deliveries) are dispatched only after that drain completes, so no `data`
callback runs between the handler registration inside
`createSession`/`reconnectSession` and the `ready` send. -/
def connectionTrace (inp : ConnInput) (chunks : List (List Nat)) :
    List WSMessage :=
  match handleConnection inp with
  | (setup, some _) => setup
  | (setup, none) => setup ++ chunks.map (fun c => .output (decodeBytes (stripDockerHeader c)))

/-! ## Gateway close handling (`TerminalWSServer.handleClose`) -/

/-- An evaluation state with nothing executed yet. -/
def emptyEvalState : EvalState := ⟨[], [], [], 0⟩

/-- A shell step with no `command` field. -/
def shellChildNoCommand : WorkflowStep :=
  .mk "c1" .shell none none none none none none

/-- A parallel step whose only (shell) child lacks a command. -/
def parallelStepEx : WorkflowStep :=
  .mk "p" .parallel none (some [shellChildNoCommand]) none none none none

/-- A shell step with `onFailure = retry` and `retries = 2`. -/
def retryStepEx : WorkflowStep :=
  .mk "r" .shell (some "false") none none none (some 2) (some .retry)

/-- An oracle state in which the first exec attempt exits 1 and a second
attempt would succeed with output `ok`. -/
def retryOracleState : EvalState :=
  ⟨[.ok ("", 1), .ok ("ok", 0)], [], [], 0⟩

/-- A wait step. -/
def waitStepEx : WorkflowStep :=
  .mk "w" .wait none none none none none none

/-! # Theorems -/

/-! ## C1 — exec stream framing -/

/-- C1, counterexample.  The claim says a chunk whose first byte is not `1`
or `2` (here the single byte `65`) is passed through `ContainerManager.exec`
unmodified; in the source `exec` slices 8 bytes off every chunk, so the
captured output of this exec is empty, not `[65]`. -/
theorem exec_unconditional_strip_counterexample :
    (containerExec [[65]] (some 0)).1 ≠ [65] := by decide

/-- C1, amended.  `ContainerManager.exec` strips the first 8 bytes of every
received chunk unconditionally — it passes a chunk through unmodified only
when the chunk is empty — and returns the whitespace-trimmed concatenation
of the stripped chunks with the inspect-reported exit code (`0` when
absent).  The conditional strip the claim describes — the header is removed
exactly when the first byte is `1` or `2` and the chunk is at least 9 bytes,
all other chunks passing through unmodified — is the behavior of the
terminal gateway's `stripDockerHeader`. -/
theorem exec_strip_characterization :
    (∀ chunk : List Nat, execStripChunk chunk = chunk ↔ chunk = []) ∧
    (∀ chunk : List Nat,
      stripDockerHeader chunk ≠ chunk ↔
        (8 < chunk.length ∧ (chunk.head? = some 1 ∨ chunk.head? = some 2))) ∧
    (∀ (chunks : List (List Nat)) (e : Option Int),
      containerExec chunks e =
        (trimBytes ((chunks.map execStripChunk).flatten), e.getD 0)) := by
  refine ⟨?_, ?_, fun chunks e => rfl⟩
  · intro chunk
    constructor
    · intro h
      cases chunk with
      | nil => rfl
      | cons a t =>
        have hlen := congrArg List.length h
        simp [execStripChunk] at hlen
        omega
    · rintro rfl
      rfl
  · intro chunk
    by_cases hc : 8 < chunk.length ∧ (chunk.head? = some 1 ∨ chunk.head? = some 2)
    · simp only [stripDockerHeader, if_pos hc]
      refine iff_of_true ?_ hc
      intro h
      have hlen := congrArg List.length h
      simp [List.length_drop] at hlen
      omega
    · simp only [stripDockerHeader, if_neg hc]
      simp [hc]

/-! ## C9 — variable substitution -/

/-- C9, counterexample.  With the variable map `{A: "1$A"}` the command `$A`
substitutes to `1$A`, and a second application of the same substitution
yields `11$A`: substitution is not idempotent for every variable map. -/
theorem substitution_not_idempotent_counterexample :
    substituteVariables [("A", "1$A")]
        (substituteVariables [("A", "1$A")] "$A") ≠
      substituteVariables [("A", "1$A")] "$A" := by decide

/-- C9, amended.  The concrete half of the claim holds: with
`{A: "x", LONG: "y"}` the command `echo $A ${LONG}` substitutes to
`echo x y`, and re-applying the same substitution to `echo x y` leaves it
unchanged.  Idempotence does not hold for every variable map (a value may
itself contain a `$NAME` reference, see the counterexample). -/
theorem substitution_example_amended :
    substituteVariables [("A", "x"), ("LONG", "y")] "echo $A $\x7bLONG\x7d" =
      "echo x y" ∧
    substituteVariables [("A", "x"), ("LONG", "y")] "echo x y" = "echo x y" := by
  decide

/-! ## C6 — gateway close handling -/

/-- C7, counterexample.  A reconnect attempt with a session id whose
`CacheSession` is absent is closed with code `4004` ("Connection failed",
i.e. setup failed), not with the access-denied code `4003` the claim
names. -/
theorem reconnect_denied_close_code_counterexample :
    closeCodeOf (handleConnection
        ⟨some "t", some "w1", some "s1", some "u1", true, none, true, [], "n1"⟩) =
      some 4004 ∧
    (some 4004 : Option Nat) ≠ some 4003 := by decide

/-- C7, amended.  When a reconnecting client names a session whose
`CacheSession` is absent, or whose stored `userId` differs from the
authenticated user, `reconnectSession` throws (`Session not found` /
`Session access denied`), the generic setup `catch` sends the corresponding
`error` frame prefixed `Connection failed: `, and the socket is closed with
code `4004` ("Connection failed").  Close code `4003` is used only for the
earlier workspace-ownership check. -/
theorem reconnect_denied_amended :
    ∀ (inp : ConnInput) (t w sid u : String),
      inp.token = some t → inp.workspaceId = some w → inp.auth = some u →
      inp.workspaceFound = true → inp.sessionId = some sid →
      ((inp.cacheSession = none →
          handleConnection inp =
            ([.error "Connection failed: Session not found"],
             some (4004, "Connection failed"))) ∧
       (∀ cs, inp.cacheSession = some cs → cs.userId ≠ u →
          handleConnection inp =
            ([.error "Connection failed: Session access denied"],
             some (4004, "Connection failed")))) := by
  intro inp t w sid u htok hws hauth hwf hsid
  rcases inp with ⟨tok, wsid, sid', auth, wf, cs, ce, buf, nsid⟩
  simp only at htok hws hauth hwf hsid
  subst htok hws hauth hwf hsid
  constructor
  · intro hcs
    simp only at hcs
    subst hcs
    simp [handleConnection]
  · intro cs' hcs hne
    simp only at hcs
    subst hcs
    simp [handleConnection, bne_iff_ne, hne]

/-- C7, witness for the amended theorem at concrete inputs: an absent cache
session and a user mismatch both produce the `4004` close. -/
theorem reconnect_denied_amended_witness :
    handleConnection
        ⟨some "t", some "w1", some "s1", some "u1", true, none, true, [], "n1"⟩ =
      ([.error "Connection failed: Session not found"],
       some (4004, "Connection failed")) ∧
    handleConnection
        ⟨some "t", some "w1", some "s1", some "u1", true,
         some ⟨"s1", "w1", "other", "c1", "tmx", 0, .active, "", ""⟩,
         true, [], "n1"⟩ =
      ([.error "Connection failed: Session access denied"],
       some (4004, "Connection failed")) :=
  ⟨(reconnect_denied_amended _ "t" "w1" "s1" "u1" rfl rfl rfl rfl rfl).1 rfl,
   (reconnect_denied_amended _ "t" "w1" "s1" "u1" rfl rfl rfl rfl rfl).2
     _ rfl (by decide)⟩

/-! ## C8 — ready precedes output -/

/-- C8, confirmed.  In every connection trace — any parameters, any
authentication/lookup results, any stream chunks — every frame sent before
the first `ready` frame is a non-`output` frame: `output` frames are only
produced by the stream `data` handler, whose deliveries are dispatched after
the setup microtask chain has sent `ready` (see `connectionTrace`), and the
setup frames themselves (`error`, and the `reconnect` replay prefix) are not
`output` frames. -/
theorem ready_before_output :
    ∀ (inp : ConnInput) (chunks : List (List Nat)),
      ((connectionTrace inp chunks).takeWhile (fun f => !f.isReady)).all
        (fun f => !f.isOutput) = true := by
  intro inp chunks
  rcases inp with ⟨tok, wsid, sid, auth, wf, cs, ce, buf, nsid⟩
  rcases tok with _ | t <;> rcases wsid with _ | ws <;>
      rcases auth with _ | u <;> rcases wf <;> rcases sid with _ | s <;>
      rcases cs with _ | c <;> rcases ce <;> rcases buf with _ | ⟨b, bs⟩ <;>
      (try by_cases hu : c.userId = u) <;>
      simp [connectionTrace, handleConnection, List.takeWhile,
        WSMessage.isReady, WSMessage.isOutput, List.all_eq_true, *]

/-! ## C10 — reconnect with an empty replay buffer -/

/-- C10, confirmed.  A successful reattach to an existing session whose
replay buffer is empty sends no `reconnect` frame at all, and the first
frame the client receives is the `ready` frame carrying the bound session
id. -/
theorem reconnect_empty_buffer_no_prefix :
    ∀ (inp : ConnInput) (chunks : List (List Nat)) (t w sid u : String)
      (cs : RedisSessionState),
      inp.token = some t → inp.workspaceId = some w → inp.auth = some u →
      inp.workspaceFound = true → inp.sessionId = some sid →
      inp.cacheSession = some cs → cs.userId = u → inp.containerExists = true →
      inp.buffer = [] →
      (connectionTrace inp chunks).head? = some (.ready sid) ∧
      (connectionTrace inp chunks).all (fun f => !f.isReconnect) = true := by
  intro inp chunks t w sid u cs htok hws hauth hwf hsid hcs huid hce hbuf
  rcases inp with ⟨tok, wsid, sid', auth, wf, cs', ce, buf, nsid⟩
  simp only at htok hws hauth hwf hsid hcs hce hbuf
  subst htok hws hauth hwf hsid hcs hce hbuf
  subst huid
  simp [connectionTrace, handleConnection, List.all_eq_true,
    WSMessage.isReconnect]

/-- C10, witness: concrete reattach with an empty buffer and one later
stream chunk; the trace starts with `ready` and contains no `reconnect`
frame. -/
theorem reconnect_empty_buffer_no_prefix_witness :
    (connectionTrace
        ⟨some "t", some "w1", some "s1", some "u1", true,
         some ⟨"s1", "w1", "u1", "c1", "tmx", 0, .active, "", ""⟩,
         true, [], "n1"⟩
        [[104, 105]]).head? = some (.ready "s1") ∧
    (connectionTrace
        ⟨some "t", some "w1", some "s1", some "u1", true,
         some ⟨"s1", "w1", "u1", "c1", "tmx", 0, .active, "", ""⟩,
         true, [], "n1"⟩
        [[104, 105]]).all (fun f => !f.isReconnect) = true :=
  reconnect_empty_buffer_no_prefix _ _ "t" "w1" "s1" "u1" _
    rfl rfl rfl rfl rfl rfl rfl rfl rfl

/-! ## C4 — workflow cancellation -/

/-- C4, counterexample.  A run with one remaining (wait) step is cancelled:
`cancelWorkflow` writes `cancelled` to the run row, but the worker's next
`job.getState()` check observes the non-active job, throws
`Workflow cancelled`, and `processJob`'s exception handler persists
`failed` — so the last write to the run row is `failed`, not `cancelled`,
contradicting the claim that the row remains `cancelled`. -/
theorem cancel_overwrite_counterexample :
    (runRowWritesAfterCancel 5 (fun _ => false) [] [waitStepEx]
        emptyEvalState).getLast? = some RunStatus.failed ∧
    RunStatus.failed ≠ RunStatus.cancelled := by decide

/-- C4, amended.  After `cancelWorkflow(r)` no new step of `r` starts: the
very next cancellation check aborts the loop, leaving the exec log and the
recorded step results exactly as they were (only the check counter
advances).  However, the run row does not remain `cancelled` when a worker
is still processing the run: the thrown `Workflow cancelled` is caught by
`processJob`, which persists the terminal status `failed` over the
`cancelled` written by `cancelWorkflow`. -/
theorem cancel_workflow_amended :
    ∀ (fuel : Nat) (jobActive : Nat → Bool) (vars : List (String × String))
      (step : WorkflowStep) (rest : List WorkflowStep) (s : EvalState),
      jobActive s.checkCount = false →
      (executeSteps (fuel + 1) jobActive vars (step :: rest) s =
        (.error "Workflow cancelled", { s with checkCount := s.checkCount + 1 }) ∧
       (processJob (fuel + 1) jobActive vars (step :: rest) s).1 =
         RunStatus.failed) := by
  intro fuel jobActive vars step rest s h
  have hexe : executeSteps (fuel + 1) jobActive vars (step :: rest) s =
      (.error "Workflow cancelled", { s with checkCount := s.checkCount + 1 }) := by
    simp [executeSteps, h]
  exact ⟨hexe, by simp [processJob, hexe]⟩

/-- C4, witness for the amended theorem: a cancelled job with one pending
wait step. -/
theorem cancel_workflow_amended_witness :
    executeSteps 1 (fun _ => false) [] [waitStepEx] emptyEvalState =
      (.error "Workflow cancelled",
       { emptyEvalState with checkCount := emptyEvalState.checkCount + 1 }) ∧
    (processJob 1 (fun _ => false) [] [waitStepEx] emptyEvalState).1 =
      RunStatus.failed :=
  cancel_workflow_amended 0 (fun _ => false) [] waitStepEx [] emptyEvalState rfl

/-! ## C5 — retry / on-failure policies -/

/-- C5, counterexample.  A shell step with `onFailure = retry` and
`retries = 2` whose first exec attempt exits `1` (a second attempt would
succeed with output `ok`): the engine records a single `failed` result and
leaves the second oracle outcome unconsumed — the step is evaluated exactly
once — whereas the retry semantics the claim describes
(`executeShellStepWithRetrySpec`) re-runs it and obtains the success. -/
theorem retry_not_implemented_counterexample :
    (executeSteps 3 (fun _ => true) [] [retryStepEx] retryOracleState).2.oracle =
      [.ok ("ok", 0)] ∧
    (executeSteps 3 (fun _ => true) [] [retryStepEx]
        retryOracleState).2.steps.map StepResult.status = [.failed] ∧
    (executeShellStepWithRetrySpec 2 [] retryStepEx retryOracleState).1 =
      .ok { stepId := "r", status := .success, output := "ok",
            error := none, exitCode := some 0 } := by decide

/-- C5, amended.  The engine implements no retry: every step is evaluated
exactly once per loop iteration regardless of `retries`.  The three
conjuncts characterize a shell step under the on-failure policies:
(i) a thrown evaluation (rejected exec — timeout or transport failure) with
`onFailure = stop` records the caught failed result and rethrows, so no
later step runs; (ii) a thrown evaluation with any other policy — including
`retry` — records the caught failed result and proceeds directly to the
remaining steps, having consumed a single exec outcome; (iii) a non-zero
exit code does not throw: the failed shell result is recorded and the loop
proceeds to the remaining steps whatever the policy, again after a single
exec outcome. -/
theorem on_failure_policy_amended :
    (∀ (fuel : Nat) (jobActive : Nat → Bool) (vars : List (String × String))
       (step : WorkflowStep) (rest : List WorkflowStep) (s : EvalState)
       (c e : String) (more : List (Except String (String × Int))),
       jobActive s.checkCount = true → step.type = .shell →
       step.command = some c → s.oracle = .error e :: more →
       step.onFailure = some .stop →
       executeSteps (fuel + 1) jobActive vars (step :: rest) s =
         (.error e,
          { oracle := more,
            execLog := s.execLog ++ [substituteVariables vars c],
            steps := s.steps ++ [caughtFailedResult step e],
            checkCount := s.checkCount + 1 })) ∧
    (∀ (fuel : Nat) (jobActive : Nat → Bool) (vars : List (String × String))
       (step : WorkflowStep) (rest : List WorkflowStep) (s : EvalState)
       (c e : String) (more : List (Except String (String × Int))),
       jobActive s.checkCount = true → step.type = .shell →
       step.command = some c → s.oracle = .error e :: more →
       step.onFailure ≠ some .stop →
       executeSteps (fuel + 1) jobActive vars (step :: rest) s =
         executeSteps fuel jobActive vars rest
           { oracle := more,
             execLog := s.execLog ++ [substituteVariables vars c],
             steps := s.steps ++ [caughtFailedResult step e],
             checkCount := s.checkCount + 1 }) ∧
    (∀ (fuel : Nat) (jobActive : Nat → Bool) (vars : List (String × String))
       (step : WorkflowStep) (rest : List WorkflowStep) (s : EvalState)
       (c out : String) (code : Int)
       (more : List (Except String (String × Int))),
       jobActive s.checkCount = true → step.type = .shell →
       step.command = some c → s.oracle = .ok (out, code) :: more →
       code ≠ 0 →
       executeSteps (fuel + 1) jobActive vars (step :: rest) s =
         executeSteps fuel jobActive vars rest
           { oracle := more,
             execLog := s.execLog ++ [substituteVariables vars c],
             steps := s.steps ++
               [{ stepId := step.id, status := .failed, output := out,
                  error := some ("Command exited with code " ++ toString code),
                  exitCode := some code }],
             checkCount := s.checkCount + 1 }) := by
  refine ⟨?_, ?_, ?_⟩
  · intro fuel jobActive vars step rest s c e more ha ht hc ho hf
    simp [executeSteps, executeShellStep, issueExec, ha, ht, hc, ho, hf]
  · intro fuel jobActive vars step rest s c e more ha ht hc ho hf
    simp [executeSteps, executeShellStep, issueExec, ha, ht, hc, ho, hf]
  · intro fuel jobActive vars step rest s c out code more ha ht hc ho hcode
    simp [executeSteps, executeShellStep, issueExec, ha, ht, hc, ho, hcode]

/-- C5, witness for the amended theorem: (i) a timed-out exec under `stop`
rethrows after recording the caught result; (ii) the same rejection under
`retry` consumes one attempt and proceeds; (iii) an exit-code-1 shell step
under `stop` records the failed result and proceeds. -/
theorem on_failure_policy_amended_witness :
    executeSteps 1 (fun _ => true) []
        [WorkflowStep.mk "s" .shell (some "boom") none none none none (some .stop)]
        ⟨[.error "Step timed out after 1s"], [], [], 0⟩ =
      (.error "Step timed out after 1s",
       { oracle := [],
         execLog := [] ++ [substituteVariables [] "boom"],
         steps := [] ++ [caughtFailedResult
           (WorkflowStep.mk "s" .shell (some "boom") none none none none (some .stop))
           "Step timed out after 1s"],
         checkCount := 0 + 1 }) ∧
    executeSteps 2 (fun _ => true) [] [retryStepEx]
        ⟨[.error "Step timed out after 1s"], [], [], 0⟩ =
      executeSteps 1 (fun _ => true) [] []
        { oracle := [],
          execLog := [] ++ [substituteVariables [] "false"],
          steps := [] ++ [caughtFailedResult retryStepEx "Step timed out after 1s"],
          checkCount := 0 + 1 } ∧
    executeSteps 2 (fun _ => true) []
        [WorkflowStep.mk "n" .shell (some "false") none none none none (some .stop)]
        ⟨[.ok ("", 1)], [], [], 0⟩ =
      executeSteps 1 (fun _ => true) [] []
        { oracle := [],
          execLog := [] ++ [substituteVariables [] "false"],
          steps := [] ++
            [{ stepId := "n", status := .failed, output := "",
               error := some ("Command exited with code " ++ toString (1 : Int)),
               exitCode := some 1 }],
          checkCount := 0 + 1 } :=
  ⟨on_failure_policy_amended.1 0 (fun _ => true) []
     (WorkflowStep.mk "s" .shell (some "boom") none none none none (some .stop))
     [] ⟨[.error "Step timed out after 1s"], [], [], 0⟩
     "boom" "Step timed out after 1s" [] rfl rfl rfl rfl rfl,
   on_failure_policy_amended.2.1 1 (fun _ => true) [] retryStepEx
     [] ⟨[.error "Step timed out after 1s"], [], [], 0⟩
     "false" "Step timed out after 1s" [] rfl rfl rfl rfl (by decide),
   on_failure_policy_amended.2.2 1 (fun _ => true) []
     (WorkflowStep.mk "n" .shell (some "false") none none none none (some .stop))
     [] ⟨[.ok ("", 1)], [], [], 0⟩
     "false" "" 1 [] rfl rfl rfl rfl (by decide)⟩

/-! ## C2 — parallel step composition -/

/-- C2, counterexample.  A parallel step whose only shell child lacks a
command: the child's evaluation rejects, so the composite result is
`failed`, its output is the stringified-rejection placeholder
`Error: Error: Shell step requires a command`, and no child `StepResult` is
appended to the run list — hence the composite is `failed` while not a
single child result is `failed`, refuting the claimed equivalence (and the
claimed unconditional appending). -/
theorem parallel_rejected_child_counterexample :
    (executeParallelSteps [] parallelStepEx emptyEvalState).1 =
      .ok { stepId := "p", status := .failed,
            output := "Error: Error: Shell step requires a command",
            error := none, exitCode := none } ∧
    (executeParallelSteps [] parallelStepEx emptyEvalState).2.steps = [] := by
  decide

/-- C2, amended.  For a parallel step: (a) the composite is `failed` iff
some child evaluation either settled on a `failed` result or rejected
(missing command, timeout, exec failure, non-shell kind); (b) when every
child settles, this is exactly "`failed` iff at least one child result is
`failed`"; (c) a `StepResult` is appended to the run list exactly for the
children that settled on it; (d) `executeParallelSteps` appends those
settled results to the run list and builds the composite from the collected
per-child entries joined by the separator — a settled child's output, a
rejected child's stringified rejection `Error: Error: {message}`; (e) every
settled child's output occurs among the joined entries. -/
theorem parallel_compose_amended :
    (∀ results : List (Except String StepResult),
       (settledHasFailure results = true ↔
         ∃ r ∈ results, ∀ v, r = .ok v → v.status = .failed)) ∧
    (∀ results : List (Except String StepResult),
       (∀ r ∈ results, ∃ v, r = .ok v) →
       (settledHasFailure results = true ↔
         ∃ v ∈ settledResults results, v.status = .failed)) ∧
    (∀ (results : List (Except String StepResult)) (v : StepResult),
       v ∈ settledResults results ↔ .ok v ∈ results) ∧
    (∀ (vars : List (String × String)) (step : WorkflowStep) (s : EvalState)
       (children : List WorkflowStep),
       step.steps = some children → children ≠ [] →
       executeParallelSteps vars step s =
         (.ok { stepId := step.id,
                status := if settledHasFailure (evalParallelChildren vars children s).1
                          then .failed else .success,
                output := joinWith "\n---\n"
                  (settledOutputs (evalParallelChildren vars children s).1),
                error := none, exitCode := none },
          { (evalParallelChildren vars children s).2 with
            steps := (evalParallelChildren vars children s).2.steps ++
              settledResults (evalParallelChildren vars children s).1 })) ∧
    (∀ (results : List (Except String StepResult)) (v : StepResult),
       .ok v ∈ results → v.output ∈ settledOutputs results) := by
  have hmem : ∀ (results : List (Except String StepResult)) (v : StepResult),
      v ∈ settledResults results ↔ .ok v ∈ results := by
    intro results v
    simp only [settledResults, List.mem_filterMap]
    constructor
    · rintro ⟨a, ha, hav⟩
      cases a with
      | ok w =>
        simp only [Option.some.injEq] at hav
        subst hav
        exact ha
      | error e => simp at hav
    · intro h
      exact ⟨.ok v, h, rfl⟩
  have hany : ∀ results : List (Except String StepResult),
      (settledHasFailure results = true ↔
        ∃ r ∈ results, ∀ v, r = .ok v → v.status = .failed) := by
    intro results
    simp only [settledHasFailure, List.any_eq_true]
    constructor
    · rintro ⟨r, hr, hf⟩
      refine ⟨r, hr, ?_⟩
      cases r with
      | ok v =>
        intro v' hv'
        simp only [Except.ok.injEq] at hv'
        subst hv'
        simpa using hf
      | error e => intro v' hv'; exact absurd hv' (by simp)
    · rintro ⟨r, hr, hf⟩
      refine ⟨r, hr, ?_⟩
      cases r with
      | ok v => simpa using hf v rfl
      | error e => simp
  refine ⟨hany, ?_, hmem, ?_, ?_⟩
  · intro results hall
    rw [hany]
    constructor
    · rintro ⟨r, hr, hf⟩
      obtain ⟨v, rfl⟩ := hall r hr
      exact ⟨v, (hmem results v).2 hr, hf v rfl⟩
    · rintro ⟨v, hv, hf⟩
      refine ⟨.ok v, (hmem results v).1 hv, ?_⟩
      intro v' hv'
      simp only [Except.ok.injEq] at hv'
      subst hv'
      exact hf
  · intro vars step s children hsteps hne
    rcases children with _ | ⟨c, cs⟩
    · exact absurd rfl hne
    · rcases hev : evalParallelChildren vars (c :: cs) s with ⟨results, s1⟩
      simp [executeParallelSteps, hsteps, hev]
  · intro results v hv
    simp only [settledOutputs, List.mem_map]
    exact ⟨.ok v, hv, rfl⟩

/-- C2, witness for the amended theorem at concrete inputs: one settled
failed child and one settled successful child. -/
theorem parallel_compose_amended_witness :
    (settledHasFailure
        [Except.ok { stepId := "a", status := StepStatus.failed, output := "x",
                     error := none, exitCode := some 1 },
         Except.ok { stepId := "b", status := StepStatus.success, output := "y",
                     error := none, exitCode := some 0 }] = true ↔
      ∃ v ∈ settledResults
        [Except.ok { stepId := "a", status := StepStatus.failed, output := "x",
                     error := none, exitCode := some 1 },
         Except.ok { stepId := "b", status := StepStatus.success, output := "y",
                     error := none, exitCode := some 0 }], v.status = .failed) ∧
    executeParallelSteps [] parallelStepEx emptyEvalState =
      (.ok { stepId := parallelStepEx.id,
             status := if settledHasFailure
                 (evalParallelChildren [] [shellChildNoCommand] emptyEvalState).1
               then .failed else .success,
             output := joinWith "\n---\n"
               (settledOutputs
                 (evalParallelChildren [] [shellChildNoCommand] emptyEvalState).1),
             error := none, exitCode := none },
       { (evalParallelChildren [] [shellChildNoCommand] emptyEvalState).2 with
         steps := (evalParallelChildren [] [shellChildNoCommand] emptyEvalState).2.steps ++
           settledResults
             (evalParallelChildren [] [shellChildNoCommand] emptyEvalState).1 }) :=
  ⟨parallel_compose_amended.2.1 _
      (by intro r hr
          fin_cases hr <;> exact ⟨_, rfl⟩),
   parallel_compose_amended.2.2.2.1 [] parallelStepEx emptyEvalState
      [shellChildNoCommand] rfl (List.cons_ne_nil _ _)⟩

/-! ## C3 — secrets: helper lemmas -/

/-- A name-start character (`[A-Z_]`) is not JavaScript whitespace. -/
theorem isNameStart_not_ws (c : Char) (h : isNameStart c = true) :
    isJsWs c = false := by
  simp only [isNameStart, Bool.or_eq_true, Bool.and_eq_true, beq_iff_eq,
    decide_eq_true_eq] at h
  rw [Bool.eq_false_iff]
  intro hw
  simp only [isJsWs, Bool.or_eq_true, Bool.and_eq_true, beq_iff_eq,
    decide_eq_true_eq] at hw
  omega

/-- A name-start character is not `#`. -/
theorem isNameStart_ne_hash (c : Char) (h : isNameStart c = true) :
    ¬ c = '#' := by
  intro he
  rw [he] at h
  exact absurd h (by decide)

/-- A name character (`[A-Z0-9_]`) is not a newline. -/
theorem isNameChar_ne_nl (c : Char) (h : isNameChar c = true) :
    ¬ c = '\n' := by
  intro he
  rw [he] at h
  exact absurd h (by decide)

/-- Every character of a valid secret name is a name character. -/
theorem validName_all_nameChar (k : List Char)
    (hk : validSecretNameL k = true) : ∀ x ∈ k, isNameChar x = true := by
  cases k with
  | nil => simp [validSecretNameL] at hk
  | cons c rest =>
    simp only [validSecretNameL, Bool.and_eq_true, List.all_eq_true] at hk
    intro x hx
    rcases List.mem_cons.1 hx with rfl | hx'
    · simp [isNameChar, hk.1]
    · exact hk.2 x hx'

/-- A valid secret name starts with a name-start character. -/
theorem validName_head (k : List Char) (hk : validSecretNameL k = true) :
    ∀ c, k.head? = some c → isNameStart c = true := by
  cases k with
  | nil => simp [validSecretNameL] at hk
  | cons c rest =>
    simp only [validSecretNameL, Bool.and_eq_true] at hk
    intro c' hc'
    simp only [List.head?_cons, Option.some.injEq] at hc'
    exact hc' ▸ hk.1

/-- Escaping double quotes is the identity on values without one. -/
theorem escapeDq_of_not_mem (v : List Char) (h : dquote ∉ v) :
    escapeDq v = v := by
  induction v with
  | nil => rfl
  | cons c t ih =>
    rw [List.mem_cons, not_or] at h
    have hc : (c == dquote) = false := beq_eq_false_iff_ne.mpr (Ne.symm h.1)
    simp only [escapeDq, List.flatMap_cons, hc, Bool.false_eq_true, if_false]
    have := ih h.2
    simp only [escapeDq] at this
    rw [this]
    rfl

/-- `takeWhile`/`dropWhile` on a list whose prefix satisfies the predicate
and whose next element does not. -/
theorem takeWhile_dropWhile_all_append (p : Char → Bool) :
    ∀ (l1 : List Char) (c : Char) (l2 : List Char),
      (∀ x ∈ l1, p x = true) → p c = false →
      ((l1 ++ c :: l2).takeWhile p = l1 ∧
       (l1 ++ c :: l2).dropWhile p = c :: l2) := by
  intro l1
  induction l1 with
  | nil =>
    intro c l2 _ hc
    simp [List.takeWhile_cons, List.dropWhile_cons, hc]
  | cons a t ih =>
    intro c l2 h hc
    have ha : p a = true := h a (by simp)
    have ht := ih c l2 (fun x hx => h x (by simp [hx])) hc
    simp [List.takeWhile_cons, List.dropWhile_cons, ha, ht.1, ht.2]

/-- `trim` is the identity on a string with no whitespace at either end. -/
theorem trimChars_eq_self (l : List Char)
    (hh : ∀ c, l.head? = some c → isJsWs c = false)
    (hl : ∀ c, l.getLast? = some c → isJsWs c = false) :
    trimChars l = l := by
  have h1 : l.dropWhile isJsWs = l := by
    cases l with
    | nil => rfl
    | cons a t => simp [List.dropWhile_cons, hh a rfl]
  have h2 : l.reverse.dropWhile isJsWs = l.reverse := by
    cases hrev : l.reverse with
    | nil => rfl
    | cons a t =>
      have ha : l.getLast? = some a := by
        rw [← List.head?_reverse, hrev]
        rfl
      simp [List.dropWhile_cons, hl a ha]
  simp [trimChars, h1, h2]

/-- `split("\n")` on a newline-free string yields that single field. -/
theorem splitOnNl_of_not_mem (l : List Char) (h : '\n' ∉ l) :
    splitOnNl l = [l] := by
  induction l with
  | nil => rfl
  | cons c t ih =>
    rw [List.mem_cons, not_or] at h
    have hc : ¬ c = '\n' := fun he => h.1 he.symm
    simp [splitOnNl, hc, ih h.2]

/-- `split("\n")` peels off a leading newline-free field. -/
theorem splitOnNl_append (l rest : List Char) (h : '\n' ∉ l) :
    splitOnNl (l ++ '\n' :: rest) = l :: splitOnNl rest := by
  induction l with
  | nil => simp [splitOnNl]
  | cons c t ih =>
    rw [List.mem_cons, not_or] at h
    have hc : ¬ c = '\n' := fun he => h.1 he.symm
    have ht := ih h.2
    simp only [List.cons_append, splitOnNl, hc, if_false, List.append_eq, ht]

/-- Stripping surrounding quotes from a double-quoted body recovers the
body. -/
theorem stripSurroundingQuotes_wrap (v : List Char) :
    stripSurroundingQuotes (dquote :: (v ++ [dquote])) = v := by
  have h1 : dropLeadQuote (dquote :: (v ++ [dquote])) = v ++ [dquote] := by
    simp [dropLeadQuote, isQuoteChar, dquote]
  rw [stripSurroundingQuotes, h1, dropTrailQuote, List.getLast?_concat]
  simp [isQuoteChar, dquote]

/-- Stripping surrounding quotes is the identity when neither end is a
quote character. -/
theorem stripSurroundingQuotes_eq_self (v : List Char)
    (hh : ∀ c, v.head? = some c → isQuoteChar c = false)
    (hl : ∀ c, v.getLast? = some c → isQuoteChar c = false) :
    stripSurroundingQuotes v = v := by
  have h1 : dropLeadQuote v = v := by
    cases v with
    | nil => rfl
    | cons a t => simp [dropLeadQuote, hh a rfl]
  rw [stripSurroundingQuotes, h1, dropTrailQuote]
  cases hg : v.getLast? with
  | none => rfl
  | some c => simp [hl c hg]

/-- The value cleanup removes at most characters, never grows the value. -/
theorem stripSurroundingQuotes_length_le (v : List Char) :
    (stripSurroundingQuotes v).length ≤ v.length := by
  have h1 : (dropLeadQuote v).length ≤ v.length := by
    cases v with
    | nil => simp [dropLeadQuote]
    | cons a t =>
      by_cases hq : isQuoteChar a = true <;> simp [dropLeadQuote, hq]
  have h2 : ∀ w : List Char, (dropTrailQuote w).length ≤ w.length := by
    intro w
    rw [dropTrailQuote]
    cases hg : w.getLast? with
    | none => simp
    | some c =>
      by_cases hq : isQuoteChar c = true <;> simp [hq, List.length_dropLast]
  exact le_trans (h2 _) h1

/-- A line produced by `exportToEnv` for a valid name and a
newline/double-quote-free value contains no newline. -/
theorem exportLine_not_mem_nl (k v : List Char)
    (hk : validSecretNameL k = true) (hnl : '\n' ∉ v) (hdq : dquote ∉ v) :
    '\n' ∉ exportLineL k v := by
  have hknl : '\n' ∉ k := fun hm =>
    isNameChar_ne_nl '\n' (validName_all_nameChar k hk '\n' hm) rfl
  rw [exportLineL]
  by_cases hq : needsQuote v = true
  · rw [if_pos hq, escapeDq_of_not_mem v hdq]
    intro hm
    rcases List.mem_append.1 hm with hm | hm
    · exact hknl hm
    · rcases List.mem_cons.1 hm with he | hm
      · exact absurd he (by decide)
      · rcases List.mem_cons.1 hm with he | hm
        · exact absurd he (by decide)
        · rcases List.mem_append.1 hm with hm | hm
          · exact hnl hm
          · simp only [List.mem_singleton] at hm
            exact absurd hm (by decide)
  · rw [if_neg hq]
    intro hm
    rcases List.mem_append.1 hm with hm | hm
    · exact hknl hm
    · rcases List.mem_cons.1 hm with he | hm
      · exact absurd he (by decide)
      · exact hnl hm


/-- A character that is not JavaScript whitespace is not a line terminator
(the four line terminators are all in the `\s` class). -/
theorem lineTerminator_not_ws (c : Char) (h : isJsWs c = false) :
    isLineTerminator c = false := by
  rw [Bool.eq_false_iff] at h ⊢
  intro ht
  apply h
  simp only [isLineTerminator, isJsWs, Bool.or_eq_true, Bool.and_eq_true,
    beq_iff_eq, decide_eq_true_eq] at ht ⊢
  omega

/-- Characters of a value that `exportToEnv` leaves unquoted are neither
whitespace nor quote characters. -/
theorem no_quote_chars_of_not_needsQuote (v : List Char)
    (hq : needsQuote v = false) :
    ∀ c ∈ v, isJsWs c = false ∧ isQuoteChar c = false := by
  rw [needsQuote, List.any_eq_false] at hq
  intro c hc
  have h1 := hq c hc
  simp only [Bool.or_eq_true, not_or, Bool.not_eq_true] at h1
  obtain ⟨⟨⟨⟨⟨hws, hdqc⟩, hsqc⟩, _⟩, _⟩, _⟩ := h1
  exact ⟨hws, by simp [isQuoteChar, hdqc, hsqc]⟩

/-- Parsing one exported line recovers the exact `(name, value)` pair,
provided the name is valid and the value contains no line terminator and no
double quote. -/
theorem envLineToPair_exportLine (k v : List Char)
    (hk : validSecretNameL k = true)
    (hterm : ∀ c ∈ v, isLineTerminator c = false) (hdq : dquote ∉ v) :
    envLineToPair (exportLineL k v) = some (k, v) := by
  obtain ⟨c0, k', rfl⟩ : ∃ c0 k', k = c0 :: k' := by
    cases k with
    | nil => simp [validSecretNameL] at hk
    | cons a b => exact ⟨a, b, rfl⟩
  have hstart : isNameStart c0 = true := validName_head _ hk c0 rfl
  have hallk := validName_all_nameChar _ hk
  have hparse : ∀ body : List Char, body.any isLineTerminator = false →
      parseEnvLine ((c0 :: k') ++ '=' :: body) = some (c0 :: k', body) := by
    intro body hb
    have htd := takeWhile_dropWhile_all_append isNameChar (c0 :: k') '=' body
      hallk (by decide)
    simp only [List.cons_append] at htd
    rw [parseEnvLine.eq_def]
    simp only [List.cons_append, hstart, if_true, htd.1, htd.2, hb,
      Bool.false_eq_true, if_false]
  by_cases hq : needsQuote v = true
  case pos =>
    have hline : exportLineL (c0 :: k') v =
        (c0 :: k') ++ '=' :: dquote :: (v ++ [dquote]) := by
      rw [exportLineL, if_pos hq, escapeDq_of_not_mem v hdq]
    have htrim : trimChars ((c0 :: k') ++ '=' :: dquote :: (v ++ [dquote])) =
        (c0 :: k') ++ '=' :: dquote :: (v ++ [dquote]) := by
      refine trimChars_eq_self _ ?_ ?_
      · intro c hc
        simp only [List.cons_append, List.head?_cons, Option.some.injEq] at hc
        exact hc ▸ isNameStart_not_ws c0 hstart
      · intro c hc
        rw [show (c0 :: k') ++ '=' :: dquote :: (v ++ [dquote]) =
            ((c0 :: k') ++ '=' :: dquote :: v) ++ [dquote] by simp,
          List.getLast?_concat] at hc
        simp only [Option.some.injEq] at hc
        subst hc
        decide
    rw [envLineToPair, hline, htrim]
    have hne : ¬ ((c0 :: k') ++ '=' :: dquote :: (v ++ [dquote])).isEmpty = true := by
      simp
    have hhash : ¬ ((c0 :: k') ++ '=' :: dquote :: (v ++ [dquote])).head? =
        some '#' := by
      simp only [List.cons_append, List.head?_cons, Option.some.injEq]
      exact isNameStart_ne_hash c0 hstart
    have hbody : (dquote :: (v ++ [dquote])).any isLineTerminator = false := by
      rw [List.any_eq_false]
      intro c hc
      rcases List.mem_cons.1 hc with rfl | hc
      · decide
      · rcases List.mem_append.1 hc with hc | hc
        · simp [hterm c hc]
        · simp only [List.mem_singleton] at hc
          subst hc
          decide
    rw [if_neg hne, if_neg hhash, hparse _ hbody]
    dsimp only
    rw [stripSurroundingQuotes_wrap]
  case neg =>
    have hq' : needsQuote v = false := by simpa using hq
    have hvfree := no_quote_chars_of_not_needsQuote v hq'
    have hline : exportLineL (c0 :: k') v = (c0 :: k') ++ '=' :: v := by
      rw [exportLineL, if_neg hq]
    have hlast : ∀ c, ((c0 :: k') ++ '=' :: v).getLast? = some c →
        isJsWs c = false ∧ isQuoteChar c = false := by
      intro c hc
      cases hv : v with
      | nil =>
        subst hv
        rw [List.getLast?_concat] at hc
        simp only [Option.some.injEq] at hc
        subst hc
        exact ⟨by decide, by decide⟩
      | cons a t =>
        subst hv
        cases hgl : (a :: t).getLast? with
        | none => simp at hgl
        | some d =>
          have hcd : ((c0 :: k') ++ '=' :: a :: t).getLast? = some d := by
            rw [List.getLast?_append, List.getLast?_cons_cons, hgl]
            rfl
          rw [hcd] at hc
          simp only [Option.some.injEq] at hc
          subst hc
          exact hvfree d (List.mem_of_getLast?_eq_some hgl)
    have htrim : trimChars ((c0 :: k') ++ '=' :: v) = (c0 :: k') ++ '=' :: v := by
      refine trimChars_eq_self _ ?_ ?_
      · intro c hc
        simp only [List.cons_append, List.head?_cons, Option.some.injEq] at hc
        exact hc ▸ isNameStart_not_ws c0 hstart
      · intro c hc
        exact (hlast c hc).1
    have hstrip : stripSurroundingQuotes v = v := by
      refine stripSurroundingQuotes_eq_self v ?_ ?_
      · intro c hc
        exact (hvfree c (List.mem_of_mem_head? (Option.mem_def.mpr hc))).2
      · intro c hc
        exact (hvfree c (List.mem_of_getLast?_eq_some hc)).2
    rw [envLineToPair, hline, htrim]
    have hne : ¬ ((c0 :: k') ++ '=' :: v).isEmpty = true := by simp
    have hhash : ¬ ((c0 :: k') ++ '=' :: v).head? = some '#' := by
      simp only [List.cons_append, List.head?_cons, Option.some.injEq]
      exact isNameStart_ne_hash c0 hstart
    have hbody : v.any isLineTerminator = false := by
      rw [List.any_eq_false]
      intro c hc
      simp [lineTerminator_not_ws c (hvfree c hc).1]
    rw [if_neg hne, if_neg hhash, hparse _ hbody]
    dsimp only
    rw [hstrip]

/-- Export-then-import is the identity on the `(name, value)` pairs when
every name is valid and no value contains a line terminator or a double
quote. -/
theorem importPairs_exportToEnv (env : List (List Char × List Char))
    (h : ∀ p ∈ env, validSecretNameL p.1 = true ∧
      (∀ c ∈ p.2, isLineTerminator c = false) ∧ dquote ∉ p.2) :
    importPairsL (exportToEnvL env) = env := by
  induction env with
  | nil => rfl
  | cons p rest ih =>
    obtain ⟨hk, hterm, hdq⟩ := h p (by simp)
    have hnl : '\n' ∉ p.2 := fun hm => absurd (hterm '\n' hm) (by decide)
    have hline := envLineToPair_exportLine p.1 p.2 hk hterm hdq
    have hlnl := exportLine_not_mem_nl p.1 p.2 hk hnl hdq
    cases rest with
    | nil =>
      simp only [importPairsL, exportToEnvL, List.map_cons, List.map_nil, joinNl]
      rw [splitOnNl_of_not_mem _ hlnl]
      simp [hline]
    | cons q rest' =>
      have ihr := ih (fun x hx => h x (by simp [hx]))
      simp only [importPairsL, exportToEnvL, List.map_cons, joinNl] at ihr ⊢
      rw [splitOnNl_append _ _ hlnl]
      simp only [List.filterMap_cons, hline, ihr]

/-- After updating the matching rows, the first matching row holds the new
value. -/
theorem find_update (ws name value : String) (salt iv : Nat) :
    ∀ rows : List SecretRow,
      rows.any (fun r => r.workspaceId == ws && r.name == name) = true →
      ((rows.map (fun r =>
          if r.workspaceId == ws && r.name == name then
            { r with envSalt := salt, envIv := iv, envPlain := value }
          else r)).find? (fun r => r.workspaceId == ws && r.name == name)).map
        (fun r => r.envPlain) = some value := by
  intro rows
  induction rows with
  | nil => intro h; simp at h
  | cons r t ih =>
    intro h
    by_cases hp : (r.workspaceId == ws && r.name == name) = true
    · simp only [List.map_cons, if_pos hp, List.find?_cons]
      rw [hp]
      rfl
    · have hp' : (r.workspaceId == ws && r.name == name) = false := by
        simpa using hp
      simp only [List.any_cons, hp', Bool.false_or] at h
      simp only [List.map_cons, hp', Bool.false_eq_true, if_false,
        List.find?_cons, hp']
      exact ih h

/-- Appending a fresh matching row to rows with no match makes `find?`
return it. -/
theorem find_append_new (ws name : String) (row : SecretRow)
    (hw : row.workspaceId = ws) (hn : row.name = name) :
    ∀ rows : List SecretRow,
      rows.any (fun r => r.workspaceId == ws && r.name == name) = false →
      (rows ++ [row]).find? (fun r => r.workspaceId == ws && r.name == name) =
        some row := by
  intro rows
  induction rows with
  | nil =>
    intro _
    simp [List.find?_cons, hw, hn]
  | cons r t ih =>
    intro h
    simp only [List.any_cons, Bool.or_eq_false_iff] at h
    simp only [List.cons_append, List.find?_cons, h.1]
    exact ih h.2

/-- Set-then-get returns the stored plaintext. -/
theorem getSecret_setSecret (db : SecretsDb) (ws name value : String)
    (salt iv : Nat) (db' : SecretsDb)
    (hv : validSecretNameL name.toList = true)
    (hset : setSecret db ws name value salt iv = .ok db') :
    getSecret db' ws name = some value := by
  rw [setSecret, hv] at hset
  simp only [Bool.not_true, Bool.false_eq_true, if_false] at hset
  by_cases hex : db.rows.any (fun r => r.workspaceId == ws && r.name == name) = true
  · rw [if_pos hex] at hset
    simp only [Except.ok.injEq] at hset
    subst hset
    rw [getSecret]
    exact find_update ws name value salt iv db.rows hex
  · have hex' : db.rows.any (fun r => r.workspaceId == ws && r.name == name) = false := by
      simpa using hex
    rw [hex'] at hset
    simp only [Bool.false_eq_true, if_false, Except.ok.injEq] at hset
    subst hset
    rw [getSecret]
    rw [find_append_new ws name _ rfl rfl db.rows hex']
    rfl

/-- Dropping a trailing quote never lengthens the value. -/
theorem dropTrailQuote_length_le (w : List Char) :
    (dropTrailQuote w).length ≤ w.length := by
  cases hg : w.getLast? with
  | none => simp [dropTrailQuote, hg]
  | some c =>
    by_cases hq : isQuoteChar c = true <;>
      simp [dropTrailQuote, hg, hq, List.length_dropLast]

/-- The value cleanup of `importFromEnv` is the identity exactly when
neither the first nor the last character is a quote character. -/
theorem stripSurroundingQuotes_eq_self_iff (v : List Char) :
    stripSurroundingQuotes v = v ↔
      ((∀ c, v.head? = some c → isQuoteChar c = false) ∧
       (∀ c, v.getLast? = some c → isQuoteChar c = false)) := by
  constructor
  · intro hs
    have hhead : ∀ c, v.head? = some c → isQuoteChar c = false := by
      intro c hc
      by_contra hq
      rw [Bool.not_eq_false] at hq
      cases v with
      | nil => simp at hc
      | cons a t =>
        simp only [List.head?_cons, Option.some.injEq] at hc
        subst hc
        simp only [stripSurroundingQuotes, dropLeadQuote, hq, if_true] at hs
        have hlen : (dropTrailQuote t).length ≤ t.length :=
          dropTrailQuote_length_le t
        rw [hs] at hlen
        simp at hlen
    refine ⟨hhead, ?_⟩
    intro c hc
    by_contra hq
    rw [Bool.not_eq_false] at hq
    have h1 : dropLeadQuote v = v := by
      cases v with
      | nil => rfl
      | cons a t => simp [dropLeadQuote, hhead a rfl]
    rw [stripSurroundingQuotes, h1] at hs
    simp only [dropTrailQuote, hc, hq, if_true] at hs
    have hne : v ≠ [] := by
      intro h0
      rw [h0] at hc
      simp at hc
    have hpos : 0 < v.length := List.length_pos.mpr hne
    have hlen := congrArg List.length hs
    rw [List.length_dropLast] at hlen
    omega
  · intro h
    exact stripSurroundingQuotes_eq_self v h.1 h.2

/-! ## C3 — secrets: claim theorems -/

/-- C3, counterexample.  (i) Exporting the single secret `K` with value
`a"b` produces `K="a\"b"`; importing that line strips only the surrounding
quotes and stores `a\"b` — the escaping backslash survives — so
export-then-import is not the identity even though the value contains no
newline.  (ii) Exporting the value `a<CR>b` (no embedded LF) produces a
quoted line whose value part contains a carriage return; the import
regex's `(.*)` cannot match across it, so the line is skipped and the pair
dropped.  (iii) The unpaired surrounding quotes of `'ab"` are both
stripped (the claim says a non-matching pair is left unchanged). -/
theorem secrets_roundtrip_counterexample :
    importPairsL (exportToEnvL [(['K'], ['a', dquote, 'b'])]) ≠
      [(['K'], ['a', dquote, 'b'])] ∧
    importPairsL (exportToEnvL [(['K'], ['a', '\r', 'b'])]) = [] ∧
    stripSurroundingQuotes (squote :: 'a' :: 'b' :: [dquote]) = ['a', 'b'] := by
  decide

/-- C3, amended.  (i) `setSecret` followed by `getSecret` on the same
workspace and name returns the stored value (for a valid name).  (ii)
Export-then-import is the identity on the `(name, value)` pairs provided no
value contains a line terminator (LF, CR, U+2028, U+2029) **or a
double-quote character**: a double quote is exported with a backslash
escape that import never removes, and a value containing CR/U+2028/U+2029
is exported quoted but the import regex's `(.*)` cannot match across the
terminator, so the whole line is skipped and the pair is dropped.  (iii)
`importFromEnv` removes one leading and one trailing quote character
independently — not necessarily a matched pair — leaving a value unchanged
exactly when neither end is a quote character. -/
theorem secrets_roundtrip_amended :
    (∀ (db : SecretsDb) (ws name value : String) (salt iv : Nat)
       (db' : SecretsDb),
       validSecretNameL name.toList = true →
       setSecret db ws name value salt iv = .ok db' →
       getSecret db' ws name = some value) ∧
    (∀ env : List (List Char × List Char),
       (∀ p ∈ env, validSecretNameL p.1 = true ∧
         (∀ c ∈ p.2, isLineTerminator c = false) ∧ dquote ∉ p.2) →
       importPairsL (exportToEnvL env) = env) ∧
    (∀ v : List Char,
       stripSurroundingQuotes v = v ↔
         ((∀ c, v.head? = some c → isQuoteChar c = false) ∧
          (∀ c, v.getLast? = some c → isQuoteChar c = false))) :=
  ⟨getSecret_setSecret, importPairs_exportToEnv,
   stripSurroundingQuotes_eq_self_iff⟩

/-- C3, witness: a concrete set-then-get round-trip and a concrete
export-then-import round-trip. -/
theorem secrets_roundtrip_amended_witness :
    getSecret ⟨[⟨0, "w1", "API_KEY", 5, 6, "s3cret"⟩], 1⟩ "w1" "API_KEY" =
      some "s3cret" ∧
    importPairsL (exportToEnvL
        [("API_KEY".toList, "s3cret".toList),
         ("B_X".toList, "hello world".toList)]) =
      [("API_KEY".toList, "s3cret".toList),
       ("B_X".toList, "hello world".toList)] :=
  ⟨secrets_roundtrip_amended.1 ⟨[], 0⟩ "w1" "API_KEY" "s3cret" 5 6
     ⟨[⟨0, "w1", "API_KEY", 5, 6, "s3cret"⟩], 1⟩ (by decide) (by decide),
   secrets_roundtrip_amended.2.1 _ (by decide)⟩

/-- C1, witness: the characterization applied to a concrete exec. -/
theorem exec_strip_characterization_witness :
    containerExec [[65]] (some 2) =
      (trimBytes (([[65]].map execStripChunk).flatten),
       (some 2 : Option Int).getD 0) :=
  exec_strip_characterization.2.2 [[65]] (some 2)

/-- C8, witness: a concrete reconnect trace with a buffered prefix and two
later stream chunks. -/
theorem ready_before_output_witness :
    ((connectionTrace
        ⟨some "t", some "w1", some "s1", some "u1", true,
         some ⟨"s1", "w1", "u1", "c1", "tmx", 0, .active, "", ""⟩,
         true, ["old"], "n1"⟩
        [[104], [1, 0, 0, 0, 0, 0, 0, 1, 105]]).takeWhile
      (fun f => !f.isReady)).all (fun f => !f.isOutput) = true :=
  ready_before_output
    ⟨some "t", some "w1", some "s1", some "u1", true,
     some ⟨"s1", "w1", "u1", "c1", "tmx", 0, .active, "", ""⟩,
     true, ["old"], "n1"⟩
    [[104], [1, 0, 0, 0, 0, 0, 0, 1, 105]]
